import Mathlib

/-!
Verification development for the suaraNormal speaker-verification pipeline.

The JavaScript sources embedded here:
* `src/backEnd/verifikasiSuara/verify.js` — interactive tool: `cosineSimilarity`
  (lines 159–164), `THRESHOLD = 0.70` (line 16), the accept decision
  `similarity > THRESHOLD` (line 280), the recording-duration prompt
  (lines 239–248), and the staging files `enrollment.wav` / `verification.wav`
  written by `main` (lines 197–356).
* `src/unnamed/part_000` — HTTP server: `THRESHOLD = 0.69` (line 26),
  `verifySpeaker` (lines 85–134) with its `finally` cleanup, the identical
  `cosineSimilarity` (lines 118–123), and the `/process_audio` endpoint
  (lines 197–263).

JavaScript numbers are idealized as real numbers extended with NaN and the two
infinities; floating-point rounding is abstracted away.  `undefined`, which is
read when `vecB[i]` is out of bounds, turns into NaN under the arithmetic
operators used by the code and is modelled as `nan` at the point of the read.
-/

/-- An idealized JavaScript number: a real, one of the two infinities, or NaN. -/
inductive JSNum where
  | num (x : ℝ)
  | posInf
  | negInf
  | nan

/-- JavaScript `+` on idealized numbers. -/
def jsAdd : JSNum → JSNum → JSNum
  | .nan, _ => .nan
  | _, .nan => .nan
  | .num a, .num b => .num (a + b)
  | .posInf, .negInf => .nan
  | .negInf, .posInf => .nan
  | .posInf, _ => .posInf
  | _, .posInf => .posInf
  | .negInf, _ => .negInf
  | _, .negInf => .negInf

/-- JavaScript `*` on idealized numbers. -/
noncomputable def jsMul : JSNum → JSNum → JSNum
  | .nan, _ => .nan
  | _, .nan => .nan
  | .num a, .num b => .num (a * b)
  | .posInf, .num b => if b = 0 then .nan else if 0 < b then .posInf else .negInf
  | .negInf, .num b => if b = 0 then .nan else if 0 < b then .negInf else .posInf
  | .num a, .posInf => if a = 0 then .nan else if 0 < a then .posInf else .negInf
  | .num a, .negInf => if a = 0 then .nan else if 0 < a then .negInf else .posInf
  | .posInf, .posInf => .posInf
  | .posInf, .negInf => .negInf
  | .negInf, .posInf => .negInf
  | .negInf, .negInf => .posInf

/-- JavaScript `Math.sqrt` on idealized numbers (negative input gives NaN). -/
noncomputable def jsSqrt : JSNum → JSNum
  | .num x => if x < 0 then .nan else .num (Real.sqrt x)
  | .posInf => .posInf
  | .negInf => .nan
  | .nan => .nan

/-- JavaScript `/` on idealized numbers (`0/0` is NaN, `x/0` is a signed
infinity for nonzero `x`; the divisors produced by the code are never signed
zeros, so only the positive zero is modelled). -/
noncomputable def jsDiv : JSNum → JSNum → JSNum
  | .nan, _ => .nan
  | _, .nan => .nan
  | .num a, .num b =>
      if b = 0 then (if a = 0 then .nan else if 0 < a then .posInf else .negInf)
      else .num (a / b)
  | .posInf, .num b => if 0 ≤ b then .posInf else .negInf
  | .negInf, .num b => if 0 ≤ b then .negInf else .posInf
  | .num _, .posInf => .num 0
  | .num _, .negInf => .num 0
  | .posInf, .posInf => .nan
  | .posInf, .negInf => .nan
  | .negInf, .posInf => .nan
  | .negInf, .negInf => .nan

/-- JavaScript `>` on idealized numbers: any comparison involving NaN is false. -/
def jsGtProp : JSNum → JSNum → Prop
  | .nan, _ => False
  | _, .nan => False
  | .num a, .num b => b < a
  | .posInf, .posInf => False
  | .posInf, _ => True
  | .negInf, _ => False
  | .num _, .posInf => False
  | .num _, .negInf => True

/-- JS array read `vec[i]`: an in-range index yields the element, an
out-of-range index yields `undefined`, which the multiplication it feeds into
turns into NaN; it is modelled as `nan` at the read. -/
def arrRead (l : List ℝ) (i : ℕ) : JSNum :=
  match l[i]? with
  | some x => .num x
  | none => .nan

/-- The reduce callback `(sum, a, i) => sum + a * vecB[i]` of `cosineSimilarity`
(verify.js line 160, part_000 line 119); the pair `p` carries `(i, a)`. -/
noncomputable def dotStep (vecB : List ℝ) (sum : JSNum) (p : ℕ × ℝ) : JSNum :=
  jsAdd sum (jsMul (.num p.2) (arrRead vecB p.1))

/-- The call `vecA.reduce((sum, a, i) => sum + a * vecB[i], 0)` (verify.js line 160,
part_000 line 119). -/
noncomputable def dotProduct (vecA vecB : List ℝ) : JSNum :=
  vecA.enum.foldl (dotStep vecB) (.num 0)

/-- The call `vec.reduce((sum, a) => sum + a * a, 0)`: the sum of squares under the
square roots of verify.js lines 161–162 / part_000 lines 120–121.  It never
leaves the reals, so it is a plain real fold. -/
def sumSq (vec : List ℝ) : ℝ := vec.foldl (fun sum a => sum + a * a) 0

/-- The call `Math.sqrt(vec.reduce((sum, a) => sum + a * a, 0))` (verify.js lines
161–162, part_000 lines 120–121). -/
noncomputable def magnitude (vec : List ℝ) : JSNum := jsSqrt (.num (sumSq vec))

/-- The function `cosineSimilarity` (verify.js lines 159–164, part_000 lines 118–123):
`dotProduct / (magnitudeA * magnitudeB)`. -/
noncomputable def cosineSimilarity (vecA vecB : List ℝ) : JSNum :=
  jsDiv (dotProduct vecA vecB) (jsMul (magnitude vecA) (magnitude vecB))

/-- The constant `THRESHOLD = 0.70` of the interactive tool (verify.js line 16). -/
def THRESHOLD_tool : ℝ := 0.70

/-- The constant `THRESHOLD = 0.69` of the server (part_000 line 26). -/
def THRESHOLD_server : ℝ := 0.69

/-- The verification decision `similarity > THRESHOLD` (verify.js line 280,
part_000 line 128). -/
def accepts (similarity : JSNum) (T : ℝ) : Prop := jsGtProp similarity (.num T)

/-- Dot product as written in the spec, §4.3: `dot(A,B)`; on unequal lengths
`zipWith` keeps only the common prefix. -/
def specDot (A B : List ℝ) : ℝ := (List.zipWith (fun a b => a * b) A B).sum

/-- Euclidean norm as written in the spec, §4.3: `‖A‖₂`. -/
noncomputable def l2norm (v : List ℝ) : ℝ := Real.sqrt (sumSq v)

/-- The spec formula of §4.3: `dot(A,B) / (‖A‖₂ · ‖B‖₂)`. -/
noncomputable def specCosine (A B : List ℝ) : ℝ :=
  specDot A B / (l2norm A * l2norm B)

-- ### Basic reduction lemmas for the JS operations

theorem jsAdd_nan_left (x : JSNum) : jsAdd .nan x = .nan := by cases x <;> rfl

theorem jsAdd_num_nan (a : ℝ) : jsAdd (.num a) .nan = .nan := rfl

theorem jsAdd_num_num (a b : ℝ) : jsAdd (.num a) (.num b) = .num (a + b) := rfl

theorem jsMul_num_nan (a : ℝ) : jsMul (.num a) .nan = .nan := rfl

theorem jsMul_num_num (a b : ℝ) : jsMul (.num a) (.num b) = .num (a * b) := rfl

theorem jsDiv_nan_left (x : JSNum) : jsDiv .nan x = .nan := by cases x <;> rfl

theorem jsDiv_num_num_of_ne (a b : ℝ) (h : b ≠ 0) :
    jsDiv (.num a) (.num b) = .num (a / b) := by
  simp [jsDiv, h]

theorem jsDiv_num_zero_zero : jsDiv (.num 0) (.num 0) = .nan := by
  simp [jsDiv]

theorem jsGtProp_nan (y : JSNum) : ¬ jsGtProp .nan y := by
  simp [jsGtProp]

theorem accepts_nan (T : ℝ) : ¬ accepts .nan T := by
  simp [accepts, jsGtProp]

-- ### Characterizing the dot-product fold

theorem foldl_dotStep_nan (B : List ℝ) (ps : List (ℕ × ℝ)) :
    ps.foldl (dotStep B) JSNum.nan = JSNum.nan := by
  induction ps with
  | nil => rfl
  | cons p ps ih =>
      have h : dotStep B JSNum.nan p = JSNum.nan := by
        simp [dotStep, jsAdd_nan_left]
      rw [List.foldl_cons, h, ih]

theorem specDot_nil_left (B : List ℝ) : specDot [] B = 0 := rfl

theorem specDot_nil_right (A : List ℝ) : specDot A [] = 0 := by
  cases A <;> rfl

theorem specDot_cons (a b : ℝ) (A B : List ℝ) :
    specDot (a :: A) (b :: B) = a * b + specDot A B := by
  simp [specDot]

theorem arrRead_of_lt (B : List ℝ) (i : ℕ) (h : i < B.length) :
    arrRead B i = .num B[i] := by
  simp [arrRead, List.getElem?_eq_getElem h]

theorem arrRead_of_ge (B : List ℝ) (i : ℕ) (h : B.length ≤ i) :
    arrRead B i = .nan := by
  simp [arrRead, List.getElem?_eq_none h]

theorem enumFrom_foldl_dot (B : List ℝ) :
    ∀ (A : List ℝ) (i : ℕ) (acc : ℝ),
      (List.enumFrom i A).foldl (dotStep B) (JSNum.num acc) =
        if i + A.length ≤ B.length ∨ A = [] then
          JSNum.num (acc + specDot A (B.drop i))
        else JSNum.nan := by
  intro A
  induction A with
  | nil =>
      intro i acc
      simp [specDot]
  | cons a as ih =>
      intro i acc
      rw [List.enumFrom_cons, List.foldl_cons]
      by_cases hi : i < B.length
      · have hread : arrRead B i = .num B[i] := arrRead_of_lt B i hi
        have hstep : dotStep B (JSNum.num acc) (i, a) = JSNum.num (acc + a * B[i]) := by
          simp [dotStep, hread, jsMul_num_num, jsAdd_num_num]
        rw [hstep, ih (i + 1) (acc + a * B[i])]
        have hdrop : B.drop i = B[i] :: B.drop (i + 1) := List.drop_eq_getElem_cons hi
        by_cases h2 : i + (a :: as).length ≤ B.length
        · have h2r : i + 1 + as.length ≤ B.length := by
            simp only [List.length_cons] at h2
            omega
          rw [if_pos (Or.inl h2r), if_pos (Or.inl h2)]
          rw [hdrop, specDot_cons]
          exact congrArg JSNum.num (by ring)
        · have hlen : (a :: as).length = as.length + 1 := by simp
          have h2a : ¬ i + 1 + as.length ≤ B.length := by
            rw [hlen] at h2
            omega
          have hne : as ≠ [] := by
            intro hnil
            rw [hnil] at h2a
            simp at h2a
            omega
          have h2r : ¬ (i + 1 + as.length ≤ B.length ∨ as = []) := by
            push_neg
            exact ⟨by omega, hne⟩
          have h2g : ¬ (i + (a :: as).length ≤ B.length ∨ a :: as = []) := by
            push_neg
            refine ⟨?_, by simp⟩
            rw [hlen]
            omega
          rw [if_neg h2r, if_neg h2g]
      · have hread : arrRead B i = .nan := arrRead_of_ge B i (Nat.le_of_not_lt hi)
        have hstep : dotStep B (JSNum.num acc) (i, a) = JSNum.nan := by
          simp [dotStep, hread, jsMul_num_nan, jsAdd_num_nan]
        have hg : ¬ (i + (a :: as).length ≤ B.length ∨ a :: as = []) := by
          push_neg
          refine ⟨?_, by simp⟩
          simp only [List.length_cons]
          omega
        rw [hstep, foldl_dotStep_nan, if_neg hg]

theorem dotProduct_eq_of_le (A B : List ℝ) (h : A.length ≤ B.length) :
    dotProduct A B = .num (specDot A B) := by
  have hmain := enumFrom_foldl_dot B A 0 0
  rw [if_pos (Or.inl (by simpa using h))] at hmain
  simpa [dotProduct, List.enum] using hmain

theorem dotProduct_eq_nan_of_lt (A B : List ℝ) (h : B.length < A.length) :
    dotProduct A B = .nan := by
  have hmain := enumFrom_foldl_dot B A 0 0
  have hne : A ≠ [] := by
    intro hnil
    rw [hnil] at h
    simp at h
  rw [if_neg (by push_neg; exact ⟨by omega, hne⟩)] at hmain
  simpa [dotProduct, List.enum] using hmain

-- ### Sum of squares and magnitudes

theorem foldl_sumSq (v : List ℝ) :
    ∀ acc : ℝ, v.foldl (fun sum a => sum + a * a) acc = acc + sumSq v := by
  induction v with
  | nil => intro acc; simp [sumSq]
  | cons a as ih =>
      intro acc
      have h0 : sumSq (a :: as) = (0 + a * a) + sumSq as := by
        have h : sumSq (a :: as) = List.foldl (fun sum a => sum + a * a) (0 + a * a) as := rfl
        rw [h, ih (0 + a * a)]
      rw [List.foldl_cons, ih (acc + a * a), h0]
      ring

theorem sumSq_cons (a : ℝ) (as : List ℝ) : sumSq (a :: as) = a * a + sumSq as := by
  have h : sumSq (a :: as) = List.foldl (fun sum a => sum + a * a) (0 + a * a) as := rfl
  rw [h, foldl_sumSq as (0 + a * a)]
  ring

theorem sumSq_nil : sumSq [] = 0 := rfl

theorem sumSq_nonneg (v : List ℝ) : 0 ≤ sumSq v := by
  induction v with
  | nil => simp [sumSq_nil]
  | cons a as ih =>
      rw [sumSq_cons]
      nlinarith [mul_self_nonneg a]

theorem eq_zero_of_sumSq_eq_zero (v : List ℝ) (h : sumSq v = 0) :
    ∀ x ∈ v, x = 0 := by
  induction v with
  | nil => simp
  | cons a as ih =>
      rw [sumSq_cons] at h
      have ha2 : 0 ≤ a * a := mul_self_nonneg a
      have has : 0 ≤ sumSq as := sumSq_nonneg as
      have haz : a = 0 := by nlinarith
      intro x hx
      rcases List.mem_cons.mp hx with hx | hx
      · rw [hx, haz]
      · exact ih (by linarith) x hx

theorem magnitude_eq (v : List ℝ) : magnitude v = .num (l2norm v) := by
  simp [magnitude, jsSqrt, l2norm, not_lt.mpr (sumSq_nonneg v)]

theorem l2norm_nonneg (v : List ℝ) : 0 ≤ l2norm v := Real.sqrt_nonneg _

theorem l2norm_eq_zero_iff (v : List ℝ) : l2norm v = 0 ↔ sumSq v = 0 := by
  exact Real.sqrt_eq_zero (sumSq_nonneg v)

-- ### Cauchy–Schwarz for the spec formula

theorem specDot_eq_sum_range :
    ∀ (A B : List ℝ), A.length = B.length →
      specDot A B = ∑ i ∈ Finset.range A.length, A.getD i 0 * B.getD i 0 := by
  intro A
  induction A with
  | nil =>
      intro B h
      simp [specDot]
  | cons a as ih =>
      intro B h
      cases B with
      | nil => simp at h
      | cons b bs =>
          have hlen : as.length = bs.length := by
            simpa using h
          rw [specDot_cons, ih bs hlen]
          rw [List.length_cons, Finset.sum_range_succ']
          simp only [List.getD_cons_succ, List.getD_cons_zero, hlen]
          ring

theorem sumSq_eq_specDot_self (v : List ℝ) : sumSq v = specDot v v := by
  induction v with
  | nil => simp [sumSq_nil, specDot_nil_left]
  | cons a as ih => rw [sumSq_cons, specDot_cons, ih]

theorem specDot_sq_le (A B : List ℝ) (h : A.length = B.length) :
    specDot A B ^ 2 ≤ sumSq A * sumSq B := by
  rw [specDot_eq_sum_range A B h, sumSq_eq_specDot_self A, sumSq_eq_specDot_self B,
    specDot_eq_sum_range A A rfl, specDot_eq_sum_range B B rfl]
  have hcs := Finset.sum_mul_sq_le_sq_mul_sq (Finset.range A.length)
    (fun i => A.getD i 0) (fun i => B.getD i 0)
  rw [h] at hcs ⊢
  calc (∑ i ∈ Finset.range B.length, A.getD i 0 * B.getD i 0) ^ 2
      ≤ (∑ i ∈ Finset.range B.length, A.getD i 0 ^ 2) *
          ∑ i ∈ Finset.range B.length, B.getD i 0 ^ 2 := hcs
    _ = (∑ i ∈ Finset.range B.length, A.getD i 0 * A.getD i 0) *
          ∑ i ∈ Finset.range B.length, B.getD i 0 * B.getD i 0 := by
        simp [sq]

theorem abs_specDot_le (A B : List ℝ) (h : A.length = B.length) :
    |specDot A B| ≤ l2norm A * l2norm B := by
  have h1 : l2norm A * l2norm B = Real.sqrt (sumSq A * sumSq B) :=
    (Real.sqrt_mul (sumSq_nonneg A) _).symm
  rw [h1, ← Real.sqrt_sq_eq_abs]
  exact Real.sqrt_le_sqrt (specDot_sq_le A B h)

theorem specCosine_bounds (A B : List ℝ) (hlen : A.length = B.length)
    (hA : l2norm A ≠ 0) (hB : l2norm B ≠ 0) :
    -1 ≤ specCosine A B ∧ specCosine A B ≤ 1 := by
  have hA0 : 0 < l2norm A := lt_of_le_of_ne (l2norm_nonneg A) (Ne.symm hA)
  have hB0 : 0 < l2norm B := lt_of_le_of_ne (l2norm_nonneg B) (Ne.symm hB)
  have hM : 0 < l2norm A * l2norm B := mul_pos hA0 hB0
  have habs := abs_specDot_le A B hlen
  have hup : specDot A B ≤ l2norm A * l2norm B := (abs_le.mp habs).2
  have hlo : -(l2norm A * l2norm B) ≤ specDot A B := (abs_le.mp habs).1
  constructor
  · rw [specCosine, le_div_iff₀ hM]
    linarith
  · rw [specCosine, div_le_one hM]
    exact hup

theorem cosineSimilarity_eq_of_num (A B : List ℝ) (hle : A.length ≤ B.length)
    (hM : l2norm A * l2norm B ≠ 0) :
    cosineSimilarity A B = .num (specCosine A B) := by
  rw [cosineSimilarity, dotProduct_eq_of_le A B hle, magnitude_eq, magnitude_eq,
    jsMul_num_num, jsDiv_num_num_of_ne _ _ hM]
  rfl

theorem specDot_comm (A B : List ℝ) : specDot A B = specDot B A := by
  induction A generalizing B with
  | nil => rw [specDot_nil_left, specDot_nil_right]
  | cons a as ih =>
      cases B with
      | nil => rw [specDot_nil_left, specDot_nil_right]
      | cons b bs =>
          rw [specDot_cons, specDot_cons, ih bs, mul_comm]

-- ### Degenerate vectors, length mismatch, symmetry

theorem specDot_eq_zero_left (A B : List ℝ) (h : ∀ x ∈ A, x = 0) :
    specDot A B = 0 := by
  induction A generalizing B with
  | nil => rw [specDot_nil_left]
  | cons a as ih =>
      cases B with
      | nil => rw [specDot_nil_right]
      | cons b bs =>
          rw [specDot_cons, h a (by simp), ih bs (fun x hx => h x (by simp [hx]))]
          ring

theorem specDot_eq_zero_right (A B : List ℝ) (h : ∀ x ∈ B, x = 0) :
    specDot A B = 0 := by
  rw [specDot_comm]
  exact specDot_eq_zero_left B A h

theorem cosineSimilarity_nan_of_degenerate (A B : List ℝ)
    (h : sumSq A = 0 ∨ sumSq B = 0) : cosineSimilarity A B = .nan := by
  have hM : jsMul (magnitude A) (magnitude B) = .num (l2norm A * l2norm B) := by
    rw [magnitude_eq, magnitude_eq, jsMul_num_num]
  have hMz : l2norm A * l2norm B = 0 := by
    rcases h with h | h
    · rw [(l2norm_eq_zero_iff A).mpr h]
      ring
    · rw [(l2norm_eq_zero_iff B).mpr h]
      ring
  by_cases hlen : A.length ≤ B.length
  · have hdz : specDot A B = 0 := by
      rcases h with h | h
      · exact specDot_eq_zero_left A B (eq_zero_of_sumSq_eq_zero A h)
      · exact specDot_eq_zero_right A B (eq_zero_of_sumSq_eq_zero B h)
    rw [cosineSimilarity, dotProduct_eq_of_le A B hlen, hdz, hM, hMz,
      jsDiv_num_zero_zero]
  · rw [cosineSimilarity, dotProduct_eq_nan_of_lt A B (Nat.lt_of_not_le hlen),
      jsDiv_nan_left]

theorem cosineSimilarity_nan_of_longer (A B : List ℝ) (h : B.length < A.length) :
    cosineSimilarity A B = .nan := by
  rw [cosineSimilarity, dotProduct_eq_nan_of_lt A B h, jsDiv_nan_left]

theorem cosineSimilarity_symm_core (A B : List ℝ) (h : A.length = B.length) :
    cosineSimilarity A B = cosineSimilarity B A := by
  rw [cosineSimilarity, cosineSimilarity,
    dotProduct_eq_of_le A B h.le, dotProduct_eq_of_le B A h.ge,
    specDot_comm, magnitude_eq A, magnitude_eq B, jsMul_num_num, jsMul_num_num,
    mul_comm (l2norm A) (l2norm B)]

-- ### Control-flow model of the server's verifySpeaker and /process_audio

/-- Outcomes of the effectful stages inside `verifySpeaker`
(src/unnamed/part_000 lines 85–134), indexed by an abstract type `E` of
JavaScript exception values.  `enrollConv`/`probeConv` are the two ffmpeg
conversions of line 97–100 (the enrollment one fails when `audio_saya.mp3`
is missing or unreadable); `enrollEmbed`/`probeEmbed` are the two
`extractEmbedding` calls of lines 112–115 (file read, WAV decode, processor
and model inference). -/
structure ServerEnv (E : Type) where
  modelLoaded : Bool
  enrollConv : Except E Unit
  probeConv : Except E Unit
  enrollEmbed : Except E (List ℝ)
  probeEmbed : Except E (List ℝ)

open Classical in
/-- Control flow of `verifySpeaker` (part_000 lines 85–134): returns `false`
without running any stage when the model is not yet loaded (lines 86–89);
otherwise runs the conversions, then the embedding extractions, letting the
first rejection propagate (when both promises of one `Promise.all` fail the
model propagates the left one; the JS code propagates whichever rejects
first), and finally returns `similarity > THRESHOLD` (line 128).  The
`finally` file cleanup is modelled separately by `serverTrace`. -/
noncomputable def verifySpeakerRun {E : Type} (env : ServerEnv E) : Except E Bool :=
  if env.modelLoaded then
    match env.enrollConv with
    | .error e => .error e
    | .ok _ =>
      match env.probeConv with
      | .error e => .error e
      | .ok _ =>
        match env.enrollEmbed with
        | .error e => .error e
        | .ok enrollmentEmbed =>
          match env.probeEmbed with
          | .error e => .error e
          | .ok verificationEmbed =>
            .ok (if accepts (cosineSimilarity enrollmentEmbed verificationEmbed)
                    THRESHOLD_server then true else false)
  else .ok false

/-- The first stage failure of a `verifySpeakerRun`, in the order the stages
are awaited by the code. -/
def firstStageError {E : Type} (env : ServerEnv E) : Option E :=
  match env.enrollConv with
  | .error e => some e
  | .ok _ =>
    match env.probeConv with
    | .error e => some e
    | .ok _ =>
      match env.enrollEmbed with
      | .error e => some e
      | .ok _ =>
        match env.probeEmbed with
        | .error e => some e
        | .ok _ => none

/-- Outcome of the `/process_audio` endpoint for the verification portion of a
`personalized` request (part_000 lines 208–218 and 254–256): `denied` is the
403 "VERIFIKASI GAGAL" response, `serverError e` is the 500 response built in
the catch block from the thrown error `e`, and `ok` stands for continuing into
the transcription glue (abstracted here as succeeding). -/
inductive HttpOutcome (E : Type) where
  | ok
  | denied
  | serverError (e : E)

/-- The `/process_audio` handler with `model_selection === 'personalized'`
(part_000 lines 208–218, 254–256): a thrown error becomes a 500 response, a
`false` verification becomes a 403 response, a `true` verification proceeds. -/
noncomputable def processAudioPersonalized {E : Type} (env : ServerEnv E) :
    HttpOutcome E :=
  match verifySpeakerRun env with
  | .error e => .serverError e
  | .ok false => .denied
  | .ok true => .ok

-- ### File-staging model

/-- A file-system operation performed by the code: `ffmpeg ... .save(f)` /
a recording writing `f` (`create`), or `fs.unlink(f, ...)` with the error
swallowed (`unlink`, a no-op when the file is absent). -/
inductive FileOp where
  | create (f : String)
  | unlink (f : String)

/-- Effect of one operation on the set of present files. -/
def applyOp (present : String → Bool) : FileOp → (String → Bool)
  | .create f => fun g => if g = f then true else present g
  | .unlink f => fun g => if g = f then false else present g

/-- Effect of a list of operations, in order. -/
def runOps (present : String → Bool) : List FileOp → (String → Bool)
  | [] => present
  | op :: rest => runOps (applyOp present op) rest

/-- The name `path.join(UPLOADS_DIR, 'enrollment.wav')` of the server (part_000
line 92). -/
def serverEnrollWav : String := "uploads/enrollment.wav"

/-- File operations of one `verifySpeaker` call on the server (part_000
lines 85–134).  `probeWav` is the fresh `uploads/verify_<uuid>.wav` name of
line 93.  The early `return false` when the model is not loaded (lines 86–89)
happens before any staging; otherwise each successful conversion creates its
WAV (a failed conversion is modelled as creating nothing), and the `finally`
block (lines 129–133) unlinks both names on every exit path of the `try`,
whether the pipeline succeeded or threw. -/
def serverTrace {E : Type} (env : ServerEnv E) (probeWav : String) : List FileOp :=
  if env.modelLoaded then
    ((if env.enrollConv.isOk then [FileOp.create serverEnrollWav] else []) ++
     (if env.probeConv.isOk then [FileOp.create probeWav] else [])) ++
    [FileOp.unlink serverEnrollWav, FileOp.unlink probeWav]
  else []

/-- The constant `ENROLLMENT_WAV = 'enrollment.wav'` of the interactive tool (verify.js
line 13). -/
def ENROLLMENT_WAV : String := "enrollment.wav"

/-- The constant `VERIFICATION_WAV = 'verification.wav'` of the interactive tool (verify.js
line 14). -/
def VERIFICATION_WAV : String := "verification.wav"

/-- Outcomes of the effectful steps of the interactive tool's `main`
(verify.js lines 197–356) that decide which staging files get written:
whether `audio_saya.mp3` exists (line 210), whether `convertAndTrimAudio`
succeeds (line 226), whether `recordAudio` succeeds (line 253), and whether
the later model-loading/extraction steps succeed (lines 260–279) — the
latter touch no staging files either way. -/
structure ToolEnv where
  enrollmentFileExists : Bool
  enrollConvOk : Bool
  recordOk : Bool
  laterOk : Bool

/-- File operations of one run of the interactive tool's `main` (verify.js
lines 197–356): `enrollment.wav` is written by `convertAndTrimAudio`
(line 226), `verification.wav` by `recordAudio` (line 253).  No path of
`main` — success, thrown error, catch block (lines 334–352) or the `finally`
that only closes readline (lines 353–355) — ever unlinks either file. -/
def mainTrace (env : ToolEnv) : List FileOp :=
  if env.enrollmentFileExists then
    if env.enrollConvOk then
      FileOp.create ENROLLMENT_WAV ::
        (if env.recordOk then [FileOp.create VERIFICATION_WAV] else [])
    else []
  else []

-- ### The recording-duration prompt of the interactive tool

/-- Numeric value of a decimal digit character. -/
def decDigitVal (c : Char) : ℕ := c.toNat - 48

/-- Whether `c` is a hexadecimal digit. -/
def isHexDigitCh (c : Char) : Bool :=
  c.isDigit || (('a' ≤ c && c ≤ 'f') || ('A' ≤ c && c ≤ 'F'))

/-- Numeric value of a hexadecimal digit character. -/
def hexDigitVal (c : Char) : ℕ :=
  if c.isDigit then c.toNat - 48
  else if 'a' ≤ c && c ≤ 'f' then c.toNat - 87
  else c.toNat - 55

/-- Value of a string of decimal digits, most significant first. -/
def decDigitsVal (cs : List Char) : ℕ :=
  cs.foldl (fun acc c => 10 * acc + decDigitVal c) 0

/-- Value of a string of hexadecimal digits, most significant first. -/
def hexDigitsVal (cs : List Char) : ℕ :=
  cs.foldl (fun acc c => 16 * acc + hexDigitVal c) 0

/-- JavaScript `parseInt(s)` with no radix argument: skip leading whitespace,
read an optional sign, detect an optional `0x`/`0X` prefix (then hexadecimal),
otherwise read leading decimal digits, ignore everything after them; yield NaN
(`none`) when no digit is read.  (JS also skips some exotic Unicode spaces;
whitespace here is `Char.isWhitespace`.) -/
def jsParseInt (s : String) : Option ℤ :=
  let cs := s.toList.dropWhile (fun c => c.isWhitespace)
  let signed : ℤ × List Char :=
    match cs with
    | '-' :: rest => (-1, rest)
    | '+' :: rest => (1, rest)
    | _ => (1, cs)
  match signed.2 with
  | '0' :: c :: rest =>
      if c = 'x' || c = 'X' then
        let ds := rest.takeWhile isHexDigitCh
        if ds.isEmpty then none
        else some (signed.1 * (hexDigitsVal ds : ℤ))
      else
        some (signed.1 * (decDigitsVal (('0' :: c :: rest).takeWhile Char.isDigit) : ℤ))
  | other =>
      let ds := other.takeWhile Char.isDigit
      if ds.isEmpty then none
      else some (signed.1 * (decDigitsVal ds : ℤ))

/-- The recording duration the interactive tool actually uses (verify.js lines
239–248): `let durasiRekam = parseInt(durasiInput) || 10` — `||` replaces both
NaN and `0`/`-0` by 10 — then values below 3 become 5 and values above 30
become 30. -/
def durationUsed (durasiInput : String) : ℤ :=
  let durasiRekam : ℤ :=
    match jsParseInt durasiInput with
    | none => 10
    | some n => if n = 0 then 10 else n
  if durasiRekam < 3 then 5
  else if durasiRekam > 30 then 30
  else durasiRekam

-- ### Concrete-value helpers for witnesses

theorem sumSq_single (a : ℝ) : sumSq [a] = a * a := by
  rw [sumSq_cons, sumSq_nil]
  ring

theorem sumSq_pair (a b : ℝ) : sumSq [a, b] = a * a + b * b := by
  rw [sumSq_cons, sumSq_cons, sumSq_nil]
  ring

theorem l2norm_single_one : l2norm [(1 : ℝ)] = 1 := by
  rw [l2norm, sumSq_single]
  rw [show (1 : ℝ) * 1 = 1 by ring, Real.sqrt_one]

theorem l2norm_pair_one_zero : l2norm [(1 : ℝ), 0] = 1 := by
  rw [l2norm, sumSq_pair]
  rw [show (1 : ℝ) * 1 + 0 * 0 = 1 by ring, Real.sqrt_one]

theorem l2norm_pair_zero_one : l2norm [(0 : ℝ), 1] = 1 := by
  rw [l2norm, sumSq_pair]
  rw [show (0 : ℝ) * 0 + 1 * 1 = 1 by ring, Real.sqrt_one]

-- ### Claim C1

/-- C1: the verification decision accepts exactly when the similarity score
strictly exceeds the fixed threshold (`accepted = score > T`, not `>=`); the
threshold is 0.70 in the interactive tool and 0.69 in the server, both within
the 0.65–0.70 range. -/
theorem C1_threshold_decision :
    (∀ s : ℝ, accepts (.num s) THRESHOLD_tool ↔ s > THRESHOLD_tool) ∧
    (∀ s : ℝ, accepts (.num s) THRESHOLD_server ↔ s > THRESHOLD_server) ∧
    ¬ accepts (.num THRESHOLD_tool) THRESHOLD_tool ∧
    ¬ accepts (.num THRESHOLD_server) THRESHOLD_server ∧
    THRESHOLD_tool = 0.70 ∧ THRESHOLD_server = 0.69 ∧
    0.65 ≤ THRESHOLD_server ∧ THRESHOLD_server ≤ 0.70 ∧
    0.65 ≤ THRESHOLD_tool ∧ THRESHOLD_tool ≤ 0.70 := by
  refine ⟨fun s => Iff.rfl, fun s => Iff.rfl, ?_, ?_, rfl, rfl, ?_, ?_, ?_, ?_⟩ <;>
    simp [accepts, jsGtProp, THRESHOLD_tool, THRESHOLD_server] <;> norm_num

-- ### Claim C2

/-- C2: for voiceprints of equal dimensionality with nonzero magnitudes, the
scorer returns exactly `dot(A,B) / (‖A‖₂·‖B‖₂)`, and this value lies in
[-1, 1]. -/
theorem C2_cosine_formula (A B : List ℝ) (hlen : A.length = B.length)
    (hA : l2norm A ≠ 0) (hB : l2norm B ≠ 0) :
    cosineSimilarity A B = .num (specCosine A B) ∧
      -1 ≤ specCosine A B ∧ specCosine A B ≤ 1 :=
  ⟨cosineSimilarity_eq_of_num A B hlen.le (mul_ne_zero hA hB),
   specCosine_bounds A B hlen hA hB⟩

/-- Witness for C2 at A = [1,0], B = [0,1]. -/
theorem C2_cosine_formula_witness :
    [(1 : ℝ), 0].length = [(0 : ℝ), 1].length ∧
    l2norm [(1 : ℝ), 0] ≠ 0 ∧ l2norm [(0 : ℝ), 1] ≠ 0 ∧
    (cosineSimilarity [(1 : ℝ), 0] [(0 : ℝ), 1] =
        .num (specCosine [(1 : ℝ), 0] [(0 : ℝ), 1]) ∧
      -1 ≤ specCosine [(1 : ℝ), 0] [(0 : ℝ), 1] ∧
      specCosine [(1 : ℝ), 0] [(0 : ℝ), 1] ≤ 1) := by
  have hA : l2norm [(1 : ℝ), 0] ≠ 0 := by
    rw [l2norm_pair_one_zero]
    norm_num
  have hB : l2norm [(0 : ℝ), 1] ≠ 0 := by
    rw [l2norm_pair_zero_one]
    norm_num
  exact ⟨rfl, hA, hB, C2_cosine_formula _ _ rfl hA hB⟩

-- ### Claim C3

/-- C3 counterexample: the 1-dimensional [1] against the 2-dimensional [1,0]
produces the plain score 1 — the dot product silently used only the common
prefix — instead of signalling any dimension-mismatch error. -/
theorem C3_counterexample : cosineSimilarity [(1 : ℝ)] [(1 : ℝ), 0] = .num 1 := by
  have hA : l2norm [(1 : ℝ)] ≠ 0 := by
    rw [l2norm_single_one]
    norm_num
  have hB : l2norm [(1 : ℝ), 0] ≠ 0 := by
    rw [l2norm_pair_one_zero]
    norm_num
  have h := cosineSimilarity_eq_of_num [(1 : ℝ)] [(1 : ℝ), 0] (by simp)
    (mul_ne_zero hA hB)
  rw [h, specCosine, l2norm_single_one, l2norm_pair_one_zero]
  rw [specDot_cons, specDot_nil_left]
  norm_num

/-- C3 amended: the scorer performs no dimension check and signals no error on
mismatched lengths: when the first vector is longer the score is NaN (the
out-of-bounds reads poison the dot product); when it is shorter, the dot
product silently uses only the common prefix while both norms still use every
component, and a plain score `dot(A,B)/(‖A‖₂·‖B‖₂)` is returned. -/
theorem C3_amended_no_mismatch_error :
    (∀ A B : List ℝ, B.length < A.length → cosineSimilarity A B = .nan) ∧
    (∀ A B : List ℝ, A.length < B.length → l2norm A ≠ 0 → l2norm B ≠ 0 →
      cosineSimilarity A B = .num (specCosine A B)) := by
  refine ⟨cosineSimilarity_nan_of_longer, fun A B hlt hA hB => ?_⟩
  exact cosineSimilarity_eq_of_num A B hlt.le (mul_ne_zero hA hB)

/-- Witness for C3: both mismatch behaviours at concrete inputs. -/
theorem C3_amended_witness :
    cosineSimilarity [(1 : ℝ), 2] [(3 : ℝ)] = .nan ∧
    cosineSimilarity [(2 : ℝ)] [(2 : ℝ), 0] =
      .num (specCosine [(2 : ℝ)] [(2 : ℝ), 0]) := by
  have hA : l2norm [(2 : ℝ)] ≠ 0 := by
    rw [l2norm, sumSq_single]
    rw [show (2 : ℝ) * 2 = 4 by ring]
    intro hz
    rw [Real.sqrt_eq_zero (by norm_num)] at hz
    norm_num at hz
  have hB : l2norm [(2 : ℝ), 0] ≠ 0 := by
    rw [l2norm, sumSq_pair]
    rw [show (2 : ℝ) * 2 + 0 * 0 = 4 by ring]
    intro hz
    rw [Real.sqrt_eq_zero (by norm_num)] at hz
    norm_num at hz
  exact ⟨C3_amended_no_mismatch_error.1 [(1 : ℝ), 2] [(3 : ℝ)] (by simp),
    C3_amended_no_mismatch_error.2 [(2 : ℝ)] [(2 : ℝ), 0] (by simp) hA hB⟩

-- ### Claim C4

/-- C4 counterexample: a zero-magnitude vector makes the scorer return the
plain value NaN (from 0/0); no DegenerateVectorError is signalled anywhere. -/
theorem C4_counterexample : cosineSimilarity [(0 : ℝ), 0] [(1 : ℝ), 0] = .nan :=
  cosineSimilarity_nan_of_degenerate _ _ (Or.inl (by rw [sumSq_pair]; norm_num))

/-- C4 amended: when either vector has zero magnitude the score is NaN (0/0),
which the threshold comparison rejects for every threshold — so the condition
is treated as a verification failure and never a crash — but no
DegenerateVectorError is signalled. -/
theorem C4_amended_degenerate_rejected (A B : List ℝ) (T : ℝ)
    (h : sumSq A = 0 ∨ sumSq B = 0) :
    cosineSimilarity A B = .nan ∧ ¬ accepts (cosineSimilarity A B) T := by
  have hn := cosineSimilarity_nan_of_degenerate A B h
  exact ⟨hn, by rw [hn]; exact accepts_nan T⟩

/-- Witness for C4 at A = [0], B = [1], T = the server threshold. -/
theorem C4_amended_witness :
    (sumSq [(0 : ℝ)] = 0 ∨ sumSq [(1 : ℝ)] = 0) ∧
    (cosineSimilarity [(0 : ℝ)] [(1 : ℝ)] = .nan ∧
      ¬ accepts (cosineSimilarity [(0 : ℝ)] [(1 : ℝ)]) THRESHOLD_server) := by
  have h : sumSq [(0 : ℝ)] = 0 := by
    rw [sumSq_single]
    ring
  exact ⟨Or.inl h, C4_amended_degenerate_rejected _ _ _ (Or.inl h)⟩

-- ### Claim C7

/-- C7: the scorer is symmetric, `similarity(A,B) = similarity(B,A)`, for
voiceprint pairs (equal dimensionality, as all voiceprints of the one
embedding model have). -/
theorem C7_symmetry (A B : List ℝ) (h : A.length = B.length) :
    cosineSimilarity A B = cosineSimilarity B A :=
  cosineSimilarity_symm_core A B h

/-- Witness for C7 at A = [1,2], B = [3,4]. -/
theorem C7_symmetry_witness :
    [(1 : ℝ), 2].length = [(3 : ℝ), 4].length ∧
    cosineSimilarity [(1 : ℝ), 2] [(3 : ℝ), 4] =
      cosineSimilarity [(3 : ℝ), 4] [(1 : ℝ), 2] :=
  ⟨rfl, C7_symmetry _ _ rfl⟩

-- ### Claim C9

/-- C9: whenever the computed score is NaN — zero magnitude on either side, or
the first vector longer than the second (products with undefined elements) —
the decision step yields accepted = false: a NaN score is never accepted, for
either threshold. -/
theorem C9_nan_never_accepted (A B : List ℝ) (T : ℝ)
    (h : sumSq A = 0 ∨ sumSq B = 0 ∨ B.length < A.length) :
    cosineSimilarity A B = .nan ∧ ¬ accepts (cosineSimilarity A B) T := by
  have hn : cosineSimilarity A B = .nan := by
    rcases h with h | h | h
    · exact cosineSimilarity_nan_of_degenerate A B (Or.inl h)
    · exact cosineSimilarity_nan_of_degenerate A B (Or.inr h)
    · exact cosineSimilarity_nan_of_longer A B h
  exact ⟨hn, by rw [hn]; exact accepts_nan T⟩

/-- Witness for C9 at A = [2,3], B = [4] (first vector longer), T = 0.70. -/
theorem C9_nan_never_accepted_witness :
    (sumSq [(2 : ℝ), 3] = 0 ∨ sumSq [(4 : ℝ)] = 0 ∨
      [(4 : ℝ)].length < [(2 : ℝ), 3].length) ∧
    (cosineSimilarity [(2 : ℝ), 3] [(4 : ℝ)] = .nan ∧
      ¬ accepts (cosineSimilarity [(2 : ℝ), 3] [(4 : ℝ)]) THRESHOLD_tool) := by
  have h : sumSq [(2 : ℝ), 3] = 0 ∨ sumSq [(4 : ℝ)] = 0 ∨
      [(4 : ℝ)].length < [(2 : ℝ), 3].length := Or.inr (Or.inr (by simp))
  exact ⟨h, C9_nan_never_accepted _ _ _ h⟩

-- ### Claim C5

/-- Server state with the verification model loaded but the enrollment
reference `audio_saya.mp3` missing: its ffmpeg conversion rejects (here with
the abstract error value 0). -/
def envNoEnrollment : ServerEnv ℕ :=
  { modelLoaded := true, enrollConv := .error 0, probeConv := .ok (),
    enrollEmbed := .ok [], probeEmbed := .ok [] }

/-- C5 counterexample: with no enrollment reference available, the request
ends in the generic 500 server-error response carrying the transcoder's own
error — not in any dedicated no-enrollment error (none exists in the code). -/
theorem C5_counterexample :
    processAudioPersonalized envNoEnrollment = .serverError 0 := rfl

/-- C5 amended: there is no NoEnrollmentError in the code.  When the
enrollment reference file is missing or unreadable, the transcoder's error
propagates out of verifySpeaker and `/process_audio` answers with the generic
500 error response built from it; when the verification model is not yet
loaded, verifySpeaker silently returns false and the request is rejected with
the 403 response. -/
theorem C5_amended_no_enrollment_error {E : Type} (env : ServerEnv E) (e : E) :
    (env.modelLoaded = true → env.enrollConv = .error e →
      processAudioPersonalized env = .serverError e) ∧
    (env.modelLoaded = false → processAudioPersonalized env = .denied) := by
  constructor
  · intro hm he
    rw [processAudioPersonalized, verifySpeakerRun, hm, he]
    rfl
  · intro hm
    rw [processAudioPersonalized, verifySpeakerRun, hm]
    rfl

/-- Server state whose model is not yet loaded. -/
def envModelUnloaded : ServerEnv ℕ :=
  { modelLoaded := false, enrollConv := .ok (), probeConv := .ok (),
    enrollEmbed := .ok [], probeEmbed := .ok [] }

/-- Server state with a failing enrollment conversion carrying error value 7. -/
def envNoEnrollment7 : ServerEnv ℕ :=
  { modelLoaded := true, enrollConv := .error 7, probeConv := .ok (),
    enrollEmbed := .ok [], probeEmbed := .ok [] }

/-- Witness for C5: both paths at concrete states. -/
theorem C5_amended_witness :
    processAudioPersonalized envNoEnrollment7 = .serverError 7 ∧
    processAudioPersonalized envModelUnloaded = .denied :=
  ⟨(C5_amended_no_enrollment_error envNoEnrollment7 7).1 rfl rfl,
   (C5_amended_no_enrollment_error envModelUnloaded 7).2 rfl⟩

-- ### Claim C6

/-- C6: with the model loaded, the first error thrown by a normalizer
(ffmpeg conversion) or extractor stage propagates unmodified out of
verifySpeaker as the tagged failure result — the very same error value,
never replaced and never converted into an accept/reject boolean — and when
no stage fails the run returns a boolean decision, so no error is invented
either.  (The scorer, `cosineSimilarity`, is a total function in the code
and throws nothing; each stage occurs exactly once, so nothing is retried.) -/
theorem C6_error_propagation {E : Type} (env : ServerEnv E) (e : E)
    (hm : env.modelLoaded = true) :
    (firstStageError env = some e → verifySpeakerRun env = .error e) ∧
    (firstStageError env = none → ∃ b, verifySpeakerRun env = .ok b) := by
  rcases env with ⟨m, ec, pc, ee, pe⟩
  simp only at hm
  subst hm
  cases ec <;> cases pc <;> cases ee <;> cases pe <;>
    simp [verifySpeakerRun, firstStageError]

/-- Server state whose probe-embedding extraction throws error value 3. -/
def envProbeEmbedFails : ServerEnv ℕ :=
  { modelLoaded := true, enrollConv := .ok (), probeConv := .ok (),
    enrollEmbed := .ok [], probeEmbed := .error 3 }

/-- Witness for C6: the probe extraction failure 3 reaches the caller as
exactly `.error 3`. -/
theorem C6_error_propagation_witness :
    firstStageError envProbeEmbedFails = some 3 ∧
    verifySpeakerRun envProbeEmbedFails = .error 3 :=
  ⟨rfl, (C6_error_propagation envProbeEmbedFails 3 rfl).1 rfl⟩

-- ### Claim C8

theorem runOps_append (init : String → Bool) (xs ys : List FileOp) :
    runOps init (xs ++ ys) = runOps (runOps init xs) ys := by
  induction xs generalizing init with
  | nil => rfl
  | cons x xs ih =>
      rw [List.cons_append]
      exact ih (applyOp init x)

theorem runOps_unlink_pair (s : String → Bool) (f g x : String) :
    runOps s [FileOp.unlink f, FileOp.unlink g] x =
      if x = g then false else if x = f then false else s x := by
  simp [runOps, applyOp]

/-- C8 counterexample: a fully successful run of the interactive tool returns
with both staging WAV files still present — `main` never deletes them on any
exit path. -/
theorem C8_counterexample :
    runOps (fun _ => false) (mainTrace ⟨true, true, true, true⟩)
      ENROLLMENT_WAV = true ∧
    runOps (fun _ => false) (mainTrace ⟨true, true, true, true⟩)
      VERIFICATION_WAV = true := by
  constructor <;> rfl

/-- C8 amended: only the server's verifySpeaker has the scoped staging
lifetime: its `finally` block removes both staging WAVs on every exit path,
for every stage outcome (starting from a state in which this run has created
nothing yet).  The interactive tool's `main` never deletes `enrollment.wav`
and `verification.wav`: on a successful run both are still present when it
returns. -/
theorem C8_amended_staging_lifetime :
    (∀ (E : Type) (env : ServerEnv E) (probeWav : String),
      runOps (fun _ => false) (serverTrace env probeWav) serverEnrollWav = false ∧
      runOps (fun _ => false) (serverTrace env probeWav) probeWav = false) ∧
    (∀ env : ToolEnv, env.enrollmentFileExists = true → env.enrollConvOk = true →
      env.recordOk = true →
      runOps (fun _ => false) (mainTrace env) ENROLLMENT_WAV = true ∧
      runOps (fun _ => false) (mainTrace env) VERIFICATION_WAV = true) := by
  constructor
  · intro E env probeWav
    unfold serverTrace
    by_cases hm : env.modelLoaded
    · simp only [hm, if_true, runOps_append]
      constructor
      · rw [runOps_unlink_pair]
        by_cases h : serverEnrollWav = probeWav <;> simp [h]
      · rw [runOps_unlink_pair]
        simp
    · simp only [hm, if_false]
      exact ⟨rfl, rfl⟩
  · intro env h1 h2 h3
    rcases env with ⟨e1, e2, e3, e4⟩
    simp only at h1 h2 h3
    subst h1
    subst h2
    subst h3
    exact ⟨rfl, rfl⟩

/-- Witness for C8: the server cleanup and the tool's leftover files at
concrete states. -/
theorem C8_amended_witness :
    (runOps (fun _ => false) (serverTrace envProbeEmbedFails "uploads/verify_1.wav")
      serverEnrollWav = false) ∧
    runOps (fun _ => false) (mainTrace ⟨true, true, true, false⟩)
      ENROLLMENT_WAV = true :=
  ⟨(C8_amended_staging_lifetime.1 ℕ envProbeEmbedFails "uploads/verify_1.wav").1,
   (C8_amended_staging_lifetime.2 ⟨true, true, true, false⟩ rfl rfl rfl).1⟩

-- ### Claim C10

/-- C10 counterexample: the input string "0" parses to the integer 0, which is
below 3, yet the duration used is 10 rather than 5 — `parseInt(x) || 10`
treats a parsed 0 as falsy and replaces it by the default. -/
theorem C10_counterexample :
    jsParseInt "0" = some 0 ∧ durationUsed "0" = 10 := by
  constructor <;> rfl

/-- C10 amended: the duration used is always an integer in [3, 30]; empty or
non-numeric input yields 10, and so does input parsing to 0 (JS `||` treats 0
and -0 as falsy); parsed nonzero values below 3 yield 5, parsed values above
30 yield 30, and any other parsed value is used as-is. -/
theorem C10_amended_duration (s : String) :
    (3 ≤ durationUsed s ∧ durationUsed s ≤ 30) ∧
    (jsParseInt s = none → durationUsed s = 10) ∧
    (jsParseInt s = some 0 → durationUsed s = 10) ∧
    (∀ n : ℤ, jsParseInt s = some n → n ≠ 0 → n < 3 → durationUsed s = 5) ∧
    (∀ n : ℤ, jsParseInt s = some n → 30 < n → durationUsed s = 30) ∧
    (∀ n : ℤ, jsParseInt s = some n → 3 ≤ n → n ≤ 30 → durationUsed s = n) := by
  cases h : jsParseInt s with
  | none =>
      have hd : durationUsed s = 10 := by
        unfold durationUsed
        rw [h]
        norm_num
      refine ⟨by rw [hd]; norm_num, fun _ => hd, ?_, ?_, ?_, ?_⟩
      · intro hc
        exact absurd hc (by simp)
      · intro n hn _ _
        exact absurd hn (by simp)
      · intro n hn _
        exact absurd hn (by simp)
      · intro n hn _ _
        exact absurd hn (by simp)
  | some n =>
      by_cases h0 : n = 0
      · subst h0
        have hd : durationUsed s = 10 := by
          unfold durationUsed
          rw [h]
          norm_num
        refine ⟨by rw [hd]; norm_num, fun _ => hd, fun _ => hd, ?_, ?_, ?_⟩
        · intro m hm hne _
          exact absurd (Option.some.inj hm).symm hne
        · intro m hm h30
          have hm0 := Option.some.inj hm
          exact absurd h30 (by omega)
        · intro m hm h3 _
          have hm0 := Option.some.inj hm
          exact absurd h3 (by omega)
      · have hd : durationUsed s = if n < 3 then 5 else if n > 30 then 30 else n := by
          unfold durationUsed
          rw [h]
          simp [h0]
        refine ⟨?_, ?_, ?_, ?_, ?_, ?_⟩
        · rw [hd]
          split_ifs with c1 c2 <;> exact ⟨by omega, by omega⟩
        · intro hc
          exact absurd hc (by simp)
        · intro hc
          exact absurd (Option.some.inj hc) h0
        · intro m hm _ hlt
          have hnm := Option.some.inj hm
          subst hnm
          rw [hd, if_pos hlt]
        · intro m hm h30
          have hnm := Option.some.inj hm
          subst hnm
          rw [hd, if_neg (by omega), if_pos (by omega)]
        · intro m hm h3 h30
          have hnm := Option.some.inj hm
          subst hnm
          rw [hd, if_neg (by omega), if_neg (by omega)]

/-- Witness for C10: "40" parses to 40 and is clamped to 30. -/
theorem C10_amended_duration_witness :
    jsParseInt "40" = some 40 ∧ durationUsed "40" = 30 := by
  have h : jsParseInt "40" = some 40 := rfl
  exact ⟨h, (C10_amended_duration "40").2.2.2.2.1 40 h (by norm_num)⟩
